import Mathlib

/-!
# Verification of the stacks-blockchain analysis database and epoch resolution layer

Shallow embedding of `src/vm/analysis/analysis_db.rs` (the `AnalysisDatabase`
over a `RollbackWrapper` transaction manager) and of the epoch-resolution
surface exercised by `src/clarity_vm/tests/epoch_switch.rs`.

The `AnalysisDatabase` methods are translated directly from the Rust source.
The collaborators the source consumes but whose code is not in scope — the
`RollbackWrapper` / backing-store capability, the `ContractAnalysis` record
with its facet getters and its serialize/deserialize pair, and the
`get_stacks_epoch` resolution implemented by the sortition handles — are
modelled from the specification, and each such definition is marked
`Modelled from the spec:` in its doc comment.
-/

set_option maxHeartbeats 1000000

namespace StacksSpec

/-! ## Epoch identifiers, costs, and the epoch table -/

inductive StacksEpochId where
  | Epoch10
  | Epoch20
  | Epoch2_05
deriving DecidableEq, Repr

structure ExecutionCost where
  write_length : Nat
  write_count : Nat
  read_length : Nat
  read_count : Nat
  runtime : Nat
deriving DecidableEq, Repr

def U64_MAX : Nat := 2 ^ 64 - 1

/-- `ExecutionCost::max_value()`: every resource dimension at the 64-bit maximum. -/
def ExecutionCost.max_value : ExecutionCost := ⟨U64_MAX, U64_MAX, U64_MAX, U64_MAX, U64_MAX⟩

/-- Modelled from the spec: the "defined maximum sentinel" that ends the final
epoch interval — "the final epoch is open-ended up to the maximum representable
height".  The constant `STACKS_EPOCH_MAX` itself is not under `src/`; heights
queried through `get_stacks_epoch` are `u32`, so any value at least `2 ^ 32`
makes the final interval open-ended over the whole queryable range. -/
def STACKS_EPOCH_MAX : Nat := 2 ^ 63 - 1

/-- Modelled from the spec: opaque wire-protocol version markers
(`network_epoch`); their concrete values are immaterial here, only that the
three are distinct. -/
def PEER_VERSION_EPOCH_1_0 : Nat := 0

def PEER_VERSION_EPOCH_2_0 : Nat := 1

def PEER_VERSION_EPOCH_2_05 : Nat := 2

/-- A `StacksEpoch` record: a half-open height interval
`[start_height, end_height)` tagged with an epoch identifier, a resource
budget and a wire-protocol version marker. -/
structure StacksEpoch where
  epoch_id : StacksEpochId
  start_height : Nat
  end_height : Nat
  block_limit : ExecutionCost
  network_epoch : Nat
deriving DecidableEq, Repr

/-- Does epoch record `e` cover height `h` (membership in the half-open
interval `[start_height, end_height)`)? -/
def StacksEpoch.covers (e : StacksEpoch) (h : Nat) : Bool :=
  decide (e.start_height ≤ h) && decide (h < e.end_height)

/-- Modelled from the spec: the Epoch Resolution Capability,
`get_stacks_epoch(height) -> Option<StacksEpoch>` — "given height `H`, return
the unique epoch record `E` such that `E.start_height <= H < E.end_height`".
The implementation behind the sortition handles is not under `src/`; only its
test (`test_burnstatedb_epoch`) is. -/
def get_stacks_epoch (table : List StacksEpoch) (height : Nat) : Option StacksEpoch :=
  table.find? (fun e => e.covers height)

/-- The first epoch record of the table built by `test_vm_epoch_switch`:
`[0, 8)`, Epoch 1.0. -/
def epoch10_entry : StacksEpoch :=
  ⟨StacksEpochId.Epoch10, 0, 8, ExecutionCost.max_value, PEER_VERSION_EPOCH_1_0⟩

/-- The second epoch record of the table built by `test_vm_epoch_switch`:
`[8, 12)`, Epoch 2.0. -/
def epoch20_entry : StacksEpoch :=
  ⟨StacksEpochId.Epoch20, 8, 12, ExecutionCost.max_value, PEER_VERSION_EPOCH_2_0⟩

/-- The third epoch record of the table built by `test_vm_epoch_switch`:
`[12, STACKS_EPOCH_MAX)`, Epoch 2.05. -/
def epoch2_05_entry : StacksEpoch :=
  ⟨StacksEpochId.Epoch2_05, 12, STACKS_EPOCH_MAX, ExecutionCost.max_value, PEER_VERSION_EPOCH_2_05⟩

/-- The three-interval epoch table `[0,8), [8,12), [12, STACKS_EPOCH_MAX)`
passed to `SortitionDB::connect` in `test_vm_epoch_switch`. -/
def test_epoch_table : List StacksEpoch := [epoch10_entry, epoch20_entry, epoch2_05_entry]

/-! ## The two handle types over chain history (spec §4.3, §9) -/

/-- Modelled from the spec: the chain history shared by every handle; for epoch
resolution only the epoch table fixed at chain configuration time matters
("the epoch table is fixed at chain configuration time ... and never mutated by
query paths"). -/
structure ChainContext where
  epochs : List StacksEpoch
deriving DecidableEq

/-- Modelled from the spec: a read-only snapshot handle over chain history
(`SortitionHandleConn`), one implementor of the Epoch Resolution Capability. -/
structure SortitionHandleConn where
  context : ChainContext

/-- Modelled from the spec: an in-flight write-transaction handle
(`SortitionHandleTx`): the same chain history plus private uncommitted writes
("uncommitted frames are private to the writer's handle until committed"). -/
structure SortitionHandleTx where
  context : ChainContext
  pending_writes : List (Nat × Nat)

/-- Modelled from the spec: `get_stacks_epoch` as implemented by the read-only
snapshot handle — it "answers 'which epoch governs height H' by consulting the
Epoch Table" of its chain history. -/
def SortitionHandleConn.get_stacks_epoch (c : SortitionHandleConn) (h : Nat) :
    Option StacksEpoch :=
  StacksSpec.get_stacks_epoch c.context.epochs h

/-- Modelled from the spec: `get_stacks_epoch` as implemented by the in-flight
write-transaction handle — the same consultation of the Epoch Table; pending
uncommitted writes play no part in epoch resolution. -/
def SortitionHandleTx.get_stacks_epoch (t : SortitionHandleTx) (h : Nat) :
    Option StacksEpoch :=
  StacksSpec.get_stacks_epoch t.context.epochs h

/-! ## Contract identifiers and the analysis data model (spec §3)

`ContractAnalysis` and its facet getters live outside `src/`
(`vm::analysis::types`); they are modelled from the spec: "the serialized
output of static analysis for one contract: public/read-only function
signatures, defined traits (mapping from trait name to its required function
signatures), the set of traits the contract implements, and map-storage type
signatures (key type, value type) per declared data map". -/

/-- A contract identifier: "issuing address + contract name". -/
structure QualifiedContractIdentifier where
  issuer : String
  name : String
deriving DecidableEq, Repr

/-- `QualifiedContractIdentifier::to_string()`, used to build error payloads. -/
def QualifiedContractIdentifier.toStr (id : QualifiedContractIdentifier) : String :=
  id.issuer ++ "." ++ id.name

/-- Modelled from the spec: Clarity value type signatures, treated by the spec
as opaque payloads of the analysis record; a small recursive grammar keeps the
serialization question honest. -/
inductive TypeSignature where
  | IntType
  | UIntType
  | BoolType
  | PrincipalType
  | OptionalType (t : TypeSignature)
  | ResponseType (okT errT : TypeSignature)
deriving DecidableEq, Repr

/-- Modelled from the spec: a public/read-only function signature (argument
types and return type). -/
structure FunctionType where
  args : List TypeSignature
  returns : TypeSignature
deriving DecidableEq, Repr

/-- Modelled from the spec: the signature required of one function of a
defined trait. -/
structure FunctionSignature where
  args : List TypeSignature
  returns : TypeSignature
deriving DecidableEq, Repr

/-- A trait identifier: the defining contract plus the trait's name. -/
structure TraitIdentifier where
  contract_identifier : QualifiedContractIdentifier
  name : String
deriving DecidableEq, Repr

/-- Modelled from the spec: the cached static-analysis artifact for one
contract.  Maps are association lists keyed by name (the Rust uses `BTreeMap`);
lookups take the first match. -/
structure ContractAnalysis where
  public_function_types : List (String × FunctionType)
  read_only_function_types : List (String × FunctionType)
  defined_traits : List (String × List (String × FunctionSignature))
  implemented_traits : List TraitIdentifier
  map_types : List (String × (TypeSignature × TypeSignature))
deriving DecidableEq, Repr

/-- First-match association-list lookup (stands in for the `BTreeMap` gets of
the source). -/
def alookup [DecidableEq κ] (k : κ) : List (κ × α) → Option α
  | [] => none
  | (k', v) :: rest => if k' = k then some v else alookup k rest

/-- Modelled from the spec: `ContractAnalysis::get_public_function_type`,
a by-name projection out of the record. -/
def ContractAnalysis.get_public_function_type (c : ContractAnalysis) (name : String) :
    Option FunctionType :=
  alookup name c.public_function_types

/-- Modelled from the spec: `ContractAnalysis::get_read_only_function_type`. -/
def ContractAnalysis.get_read_only_function_type (c : ContractAnalysis) (name : String) :
    Option FunctionType :=
  alookup name c.read_only_function_types

/-- Modelled from the spec: `ContractAnalysis::get_defined_trait`. -/
def ContractAnalysis.get_defined_trait (c : ContractAnalysis) (name : String) :
    Option (List (String × FunctionSignature)) :=
  alookup name c.defined_traits

/-- Modelled from the spec: `ContractAnalysis::get_map_type`, yielding the
(key type, value type) pair of a declared data map. -/
def ContractAnalysis.get_map_type (c : ContractAnalysis) (name : String) :
    Option (TypeSignature × TypeSignature) :=
  alookup name c.map_types

/-! ## Serialization (spec §6, "Serialization contract")

Modelled from the spec: "`ContractAnalysis` must round-trip through a stable
serialize/deserialize pair".  The concrete wire format (the Rust uses JSON via
serde) is outside `src/`; here it is a length-prefixed flat encoding into
`List Nat`, with a genuine partial decoder so that undecodable byte strings
exist. -/

abbrev Bytes := List Nat

def encodeString (s : String) : Bytes :=
  s.toList.length :: s.toList.map Char.toNat

/-- Read `n` raw naturals off the front of the input. -/
def decodeNats : Nat → Bytes → Option (List Nat × Bytes)
  | 0, r => some ([], r)
  | _ + 1, [] => none
  | n + 1, x :: r => (decodeNats n r).map (fun p => (x :: p.1, p.2))

def decodeString : Bytes → Option (String × Bytes)
  | [] => none
  | n :: r => (decodeNats n r).map (fun p => (String.mk (p.1.map Char.ofNat), p.2))

def encodeType : TypeSignature → Bytes
  | .IntType => [0]
  | .UIntType => [1]
  | .BoolType => [2]
  | .PrincipalType => [3]
  | .OptionalType t => 4 :: encodeType t
  | .ResponseType a b => 5 :: (encodeType a ++ encodeType b)

/-- Fuelled decoder for `TypeSignature`; the fuel only needs to dominate the
length of the encoded prefix. -/
def decodeType : Nat → Bytes → Option (TypeSignature × Bytes)
  | 0, _ => none
  | _ + 1, [] => none
  | _ + 1, 0 :: r => some (.IntType, r)
  | _ + 1, 1 :: r => some (.UIntType, r)
  | _ + 1, 2 :: r => some (.BoolType, r)
  | _ + 1, 3 :: r => some (.PrincipalType, r)
  | fuel + 1, 4 :: r => (decodeType fuel r).map (fun p => (.OptionalType p.1, p.2))
  | fuel + 1, 5 :: r =>
    match decodeType fuel r with
    | none => none
    | some (a, r1) =>
      match decodeType fuel r1 with
      | none => none
      | some (b, r2) => some (.ResponseType a b, r2)
  | _ + 1, _ :: _ => none

/-- Fuel-free entry point: the input's own length bounds any prefix it can
contain. -/
def decodeTypeTop (b : Bytes) : Option (TypeSignature × Bytes) :=
  decodeType b.length b

def concatMap (enc : α → Bytes) : List α → Bytes
  | [] => []
  | a :: as => enc a ++ concatMap enc as

def encodeListOf (enc : α → Bytes) (xs : List α) : Bytes :=
  xs.length :: concatMap enc xs

def decodeCount (dec : Bytes → Option (α × Bytes)) : Nat → Bytes → Option (List α × Bytes)
  | 0, r => some ([], r)
  | n + 1, r =>
    match dec r with
    | none => none
    | some (a, r1) =>
      match decodeCount dec n r1 with
      | none => none
      | some (as, r2) => some (a :: as, r2)

def decodeListOf (dec : Bytes → Option (α × Bytes)) : Bytes → Option (List α × Bytes)
  | [] => none
  | n :: r => decodeCount dec n r

def encodePairOf (encA : α → Bytes) (encB : β → Bytes) (p : α × β) : Bytes :=
  encA p.1 ++ encB p.2

def decodePairOf (decA : Bytes → Option (α × Bytes)) (decB : Bytes → Option (β × Bytes))
    (b : Bytes) : Option ((α × β) × Bytes) :=
  match decA b with
  | none => none
  | some (a, r1) =>
    match decB r1 with
    | none => none
    | some (bb, r2) => some ((a, bb), r2)

def encodeFunctionType (ft : FunctionType) : Bytes :=
  encodeListOf encodeType ft.args ++ encodeType ft.returns

def decodeFunctionType (b : Bytes) : Option (FunctionType × Bytes) :=
  match decodeListOf decodeTypeTop b with
  | none => none
  | some (args, r1) =>
    match decodeTypeTop r1 with
    | none => none
    | some (ret, r2) => some (⟨args, ret⟩, r2)

def encodeFunctionSignature (fs : FunctionSignature) : Bytes :=
  encodeListOf encodeType fs.args ++ encodeType fs.returns

def decodeFunctionSignature (b : Bytes) : Option (FunctionSignature × Bytes) :=
  match decodeListOf decodeTypeTop b with
  | none => none
  | some (args, r1) =>
    match decodeTypeTop r1 with
    | none => none
    | some (ret, r2) => some (⟨args, ret⟩, r2)

def encodeQCI (id : QualifiedContractIdentifier) : Bytes :=
  encodeString id.issuer ++ encodeString id.name

def decodeQCI (b : Bytes) : Option (QualifiedContractIdentifier × Bytes) :=
  match decodeString b with
  | none => none
  | some (issuer, r1) =>
    match decodeString r1 with
    | none => none
    | some (name, r2) => some (⟨issuer, name⟩, r2)

def encodeTraitIdentifier (t : TraitIdentifier) : Bytes :=
  encodeQCI t.contract_identifier ++ encodeString t.name

def decodeTraitIdentifier (b : Bytes) : Option (TraitIdentifier × Bytes) :=
  match decodeQCI b with
  | none => none
  | some (ci, r1) =>
    match decodeString r1 with
    | none => none
    | some (name, r2) => some (⟨ci, name⟩, r2)

def encodeNamed (encV : α → Bytes) : String × α → Bytes :=
  encodePairOf encodeString encV

def decodeNamed (decV : Bytes → Option (α × Bytes)) : Bytes → Option ((String × α) × Bytes) :=
  decodePairOf decodeString decV

/-- `ContractAnalysis::serialize`: the five facets in a fixed order. -/
def ContractAnalysis.serialize (c : ContractAnalysis) : Bytes :=
  encodeListOf (encodeNamed encodeFunctionType) c.public_function_types ++
  encodeListOf (encodeNamed encodeFunctionType) c.read_only_function_types ++
  encodeListOf (encodeNamed (encodeListOf (encodeNamed encodeFunctionSignature)))
    c.defined_traits ++
  encodeListOf encodeTraitIdentifier c.implemented_traits ++
  encodeListOf (encodeNamed (encodePairOf encodeType encodeType)) c.map_types

/-- `ContractAnalysis::deserialize`: parses the five facets and requires the
input to be consumed exactly; `none` is an undecodable byte string (the Rust
implementation panics there). -/
def ContractAnalysis.deserialize (b : Bytes) : Option ContractAnalysis :=
  match decodeListOf (decodeNamed decodeFunctionType) b with
  | none => none
  | some (pub, r1) =>
    match decodeListOf (decodeNamed decodeFunctionType) r1 with
    | none => none
    | some (ro, r2) =>
      match decodeListOf (decodeNamed (decodeListOf (decodeNamed decodeFunctionSignature))) r2 with
      | none => none
      | some (traits, r3) =>
        match decodeListOf decodeTraitIdentifier r3 with
        | none => none
        | some (impls, r4) =>
          match decodeListOf (decodeNamed (decodePairOf decodeTypeTop decodeTypeTop)) r4 with
          | none => none
          | some (maps, r5) =>
            match r5 with
            | [] => some ⟨pub, ro, traits, impls, maps⟩
            | _ :: _ => none

/-! ### Round-trip lemmas for the codec -/

theorem decodeNats_encode (xs : List Nat) (r : Bytes) :
    decodeNats xs.length (xs ++ r) = some (xs, r) := by
  induction xs with
  | nil => simp [decodeNats]
  | cons x xs ih => simp [decodeNats, ih]

theorem string_mk_toList (s : String) : String.mk s.toList = s := rfl

theorem decodeString_encode (s : String) (r : Bytes) :
    decodeString (encodeString s ++ r) = some (s, r) := by
  simp only [encodeString, List.cons_append, decodeString]
  have h : decodeNats s.toList.length (s.toList.map Char.toNat ++ r) =
      some (s.toList.map Char.toNat, r) := by
    have h2 := decodeNats_encode (s.toList.map Char.toNat) r
    rwa [List.length_map] at h2
  rw [h]
  have hid : (Char.ofNat ∘ Char.toNat) = id := funext fun c => Char.ofNat_toNat c
  simp [List.map_map, hid]

theorem decodeType_encode (t : TypeSignature) :
    ∀ (fuel : Nat) (r : Bytes), (encodeType t).length ≤ fuel →
      decodeType fuel (encodeType t ++ r) = some (t, r) := by
  induction t with
  | IntType =>
    intro fuel r hf
    match fuel with
    | 0 => simp [encodeType] at hf
    | fuel + 1 => simp [encodeType, decodeType]
  | UIntType =>
    intro fuel r hf
    match fuel with
    | 0 => simp [encodeType] at hf
    | fuel + 1 => simp [encodeType, decodeType]
  | BoolType =>
    intro fuel r hf
    match fuel with
    | 0 => simp [encodeType] at hf
    | fuel + 1 => simp [encodeType, decodeType]
  | PrincipalType =>
    intro fuel r hf
    match fuel with
    | 0 => simp [encodeType] at hf
    | fuel + 1 => simp [encodeType, decodeType]
  | OptionalType t ih =>
    intro fuel r hf
    match fuel with
    | 0 => simp [encodeType] at hf
    | fuel + 1 =>
      have hlen : (encodeType t).length ≤ fuel := by
        simp [encodeType] at hf; omega
      simp [encodeType, decodeType, ih fuel r hlen]
  | ResponseType a b iha ihb =>
    intro fuel r hf
    match fuel with
    | 0 => simp [encodeType] at hf
    | fuel + 1 =>
      have hla : (encodeType a).length ≤ fuel := by
        simp [encodeType] at hf; omega
      have hlb : (encodeType b).length ≤ fuel := by
        simp [encodeType] at hf; omega
      simp [encodeType, decodeType, List.append_assoc,
        iha fuel (encodeType b ++ r) hla, ihb fuel r hlb]

theorem decodeTypeTop_encode (t : TypeSignature) (r : Bytes) :
    decodeTypeTop (encodeType t ++ r) = some (t, r) := by
  have h := decodeType_encode t (encodeType t ++ r).length r (by simp)
  simpa [decodeTypeTop] using h

theorem decodeCount_encode {α : Type} (dec : Bytes → Option (α × Bytes)) (enc : α → Bytes)
    (hdec : ∀ (a : α) (r : Bytes), dec (enc a ++ r) = some (a, r)) :
    ∀ (xs : List α) (r : Bytes),
      decodeCount dec xs.length (concatMap enc xs ++ r) = some (xs, r) := by
  intro xs
  induction xs with
  | nil => intro r; simp [concatMap, decodeCount]
  | cons a as ih =>
    intro r
    simp [concatMap, decodeCount, List.append_assoc, hdec, ih]

theorem decodeListOf_encode {α : Type} (dec : Bytes → Option (α × Bytes)) (enc : α → Bytes)
    (hdec : ∀ (a : α) (r : Bytes), dec (enc a ++ r) = some (a, r))
    (xs : List α) (r : Bytes) :
    decodeListOf dec (encodeListOf enc xs ++ r) = some (xs, r) := by
  simp [encodeListOf, decodeListOf, decodeCount_encode dec enc hdec xs r]

theorem decodePairOf_encode {α β : Type}
    (decA : Bytes → Option (α × Bytes)) (encA : α → Bytes)
    (decB : Bytes → Option (β × Bytes)) (encB : β → Bytes)
    (hA : ∀ (a : α) (r : Bytes), decA (encA a ++ r) = some (a, r))
    (hB : ∀ (b : β) (r : Bytes), decB (encB b ++ r) = some (b, r))
    (p : α × β) (r : Bytes) :
    decodePairOf decA decB (encodePairOf encA encB p ++ r) = some (p, r) := by
  simp [encodePairOf, decodePairOf, List.append_assoc, hA, hB]

theorem decodeFunctionType_encode (ft : FunctionType) (r : Bytes) :
    decodeFunctionType (encodeFunctionType ft ++ r) = some (ft, r) := by
  simp [encodeFunctionType, decodeFunctionType, List.append_assoc,
    decodeListOf_encode decodeTypeTop encodeType decodeTypeTop_encode,
    decodeTypeTop_encode]

theorem decodeFunctionSignature_encode (fs : FunctionSignature) (r : Bytes) :
    decodeFunctionSignature (encodeFunctionSignature fs ++ r) = some (fs, r) := by
  simp [encodeFunctionSignature, decodeFunctionSignature, List.append_assoc,
    decodeListOf_encode decodeTypeTop encodeType decodeTypeTop_encode,
    decodeTypeTop_encode]

theorem decodeQCI_encode (id : QualifiedContractIdentifier) (r : Bytes) :
    decodeQCI (encodeQCI id ++ r) = some (id, r) := by
  simp [encodeQCI, decodeQCI, List.append_assoc, decodeString_encode]

theorem decodeTraitIdentifier_encode (t : TraitIdentifier) (r : Bytes) :
    decodeTraitIdentifier (encodeTraitIdentifier t ++ r) = some (t, r) := by
  simp [encodeTraitIdentifier, decodeTraitIdentifier, List.append_assoc,
    decodeQCI_encode, decodeString_encode]

theorem decodeNamed_encode {α : Type} (decV : Bytes → Option (α × Bytes)) (encV : α → Bytes)
    (hV : ∀ (a : α) (r : Bytes), decV (encV a ++ r) = some (a, r))
    (p : String × α) (r : Bytes) :
    decodeNamed decV (encodeNamed encV p ++ r) = some (p, r) := by
  simpa [encodeNamed, decodeNamed] using
    decodePairOf_encode decodeString encodeString decV encV decodeString_encode hV p r

/-- The serialization contract (spec §6): the serialize/deserialize pair
round-trips every `ContractAnalysis` value exactly. -/
theorem deserialize_serialize (c : ContractAnalysis) :
    ContractAnalysis.deserialize c.serialize = some c := by
  have hFT := decodeNamed_encode decodeFunctionType encodeFunctionType decodeFunctionType_encode
  have hSig := decodeNamed_encode
    (decodeListOf (decodeNamed decodeFunctionSignature))
    (encodeListOf (encodeNamed encodeFunctionSignature))
    (decodeListOf_encode (decodeNamed decodeFunctionSignature)
      (encodeNamed encodeFunctionSignature)
      (decodeNamed_encode decodeFunctionSignature encodeFunctionSignature
        decodeFunctionSignature_encode))
  have hMap := decodeNamed_encode
    (decodePairOf decodeTypeTop decodeTypeTop)
    (encodePairOf encodeType encodeType)
    (decodePairOf_encode decodeTypeTop encodeType decodeTypeTop encodeType
      decodeTypeTop_encode decodeTypeTop_encode)
  have hmain : ContractAnalysis.deserialize (c.serialize ++ []) = some c := by
    simp only [ContractAnalysis.serialize, List.append_assoc]
    simp only [ContractAnalysis.deserialize,
      decodeListOf_encode _ _ hFT,
      decodeListOf_encode _ _ hSig,
      decodeListOf_encode _ _ decodeTraitIdentifier_encode,
      decodeListOf_encode _ _ hMap]
  simpa using hmain

/-! ## The Rollback Transaction Manager (spec §4.1, §6)

The `RollbackWrapper` the source stores into is not under `src/`; it is
modelled from the spec: "`nest()` pushes a new write frame; `commit()` pops the
top frame and merges its writes into the frame beneath it (or into durable
storage if it was the last frame); `discard()` pops the top frame and drops its
writes entirely, leaving lower frames untouched", with the backing-store
capability `get_metadata(contract_id, key) -> Result<Option<bytes>, NotFound>`,
`has_metadata_entry`, `insert_metadata`. -/

/-- A metadata address: (contract identifier, metadata key). -/
abbrev MetaKey := QualifiedContractIdentifier × String

/-- Modelled from the spec: the single failure the backing store's
`get_metadata` reports, the "not found" condition raised when the contract
itself is unknown to the chain state (cf. the source comment "treat
NoSuchContract error thrown by get_metadata as an Option::None"). -/
inductive MetadataError where
  | NotFound
deriving DecidableEq, Repr

/-- Modelled from the spec: the Rollback Transaction Manager's state — the
durable backing store plus a LIFO stack of uncommitted write frames (head =
innermost frame).  `known_contracts` is the set of contract identifiers the
underlying chain state knows (those whose commitment entry exists); metadata
reads that fall through to durable storage for an unknown contract raise the
"not found" condition. -/
@[ext]
structure RollbackWrapper where
  known_contracts : List QualifiedContractIdentifier
  base : List (MetaKey × Bytes)
  frames : List (List (MetaKey × Bytes))
deriving DecidableEq, Repr

/-- All uncommitted writes, innermost first, so that `alookup` sees the newest
write. -/
def flattenFrames : List (List (MetaKey × Bytes)) → List (MetaKey × Bytes)
  | [] => []
  | f :: fs => f ++ flattenFrames fs

/-- Modelled from the spec: `nest()` pushes a new, empty write frame. -/
def RollbackWrapper.nest (s : RollbackWrapper) : RollbackWrapper :=
  { s with frames := [] :: s.frames }

/-- Modelled from the spec: `commit()` pops the top frame and merges its writes
into the frame beneath it, or into durable storage if it was the last frame.
Committing with no open frame is a fatal programming fault in the source;
modelled as the unchanged state (unreachable from `execute`). -/
def RollbackWrapper.commit (s : RollbackWrapper) : RollbackWrapper :=
  match s.frames with
  | [] => s
  | [top] => { s with base := top ++ s.base, frames := [] }
  | top :: next :: rest => { s with frames := (top ++ next) :: rest }

/-- Modelled from the spec: `discard()`/`rollback()` pops the top frame and
drops its writes entirely, leaving lower frames untouched.  Discarding with no
open frame is a fatal programming fault in the source; modelled as the
unchanged state (unreachable from `execute`). -/
def RollbackWrapper.rollback (s : RollbackWrapper) : RollbackWrapper :=
  match s.frames with
  | [] => s
  | _ :: rest => { s with frames := rest }

/-- Modelled from the spec: `get_metadata` — pending (uncommitted) writes are
consulted first; a read that falls through to durable storage for a contract
the chain state does not know reports the "not found" condition. -/
def RollbackWrapper.get_metadata (s : RollbackWrapper) (id : QualifiedContractIdentifier)
    (key : String) : Except MetadataError (Option Bytes) :=
  match alookup (id, key) (flattenFrames s.frames) with
  | some v => Except.ok (some v)
  | none =>
    if id ∈ s.known_contracts then Except.ok (alookup (id, key) s.base)
    else Except.error MetadataError.NotFound

/-- Modelled from the spec: `has_metadata_entry` — true iff `get_metadata`
yields a present entry. -/
def RollbackWrapper.has_metadata_entry (s : RollbackWrapper)
    (id : QualifiedContractIdentifier) (key : String) : Bool :=
  match s.get_metadata id key with
  | Except.ok (some _) => true
  | _ => false

/-- Modelled from the spec: `insert_metadata` records the write in the top
(innermost) frame; writing with no open frame is a fatal programming fault in
the source, modelled as a direct durable write. -/
def RollbackWrapper.insert_metadata (s : RollbackWrapper) (id : QualifiedContractIdentifier)
    (key : String) (value : Bytes) : RollbackWrapper :=
  match s.frames with
  | [] => { s with base := ((id, key), value) :: s.base }
  | top :: rest => { s with frames := (((id, key), value) :: top) :: rest }

/-! ## The Contract Metadata Database (`src/vm/analysis/analysis_db.rs`)

Direct translation of `AnalysisDatabase`.  Methods taking `&mut self` but
observably read-only are pure functions of the state; mutators return the new
state; `load_contract`'s outer `Option` is the panic channel of
`ContractAnalysis::deserialize` (which aborts on undecodable data in the
source), with `some none` the source's `None` return value. -/

/-- The error payloads `analysis_db.rs` produces (the relevant `CheckErrors`
variants, carrying `to_string()` of the offending identifier or name). -/
inductive CheckErrors where
  | NoSuchContract (name : String)
  | NoSuchMap (name : String)
  | ContractAlreadyExists (name : String)
deriving DecidableEq, Repr

@[ext]
structure AnalysisDatabase where
  store : RollbackWrapper
deriving DecidableEq, Repr

namespace AnalysisDatabase

/-- `AnalysisDatabase::storage_key()`. -/
def storage_key : String := "analysis"

/-- `AnalysisDatabase::begin`. -/
def begin (db : AnalysisDatabase) : AnalysisDatabase :=
  ⟨db.store.nest⟩

/-- `AnalysisDatabase::commit`. -/
def commit (db : AnalysisDatabase) : AnalysisDatabase :=
  ⟨db.store.commit⟩

/-- `AnalysisDatabase::roll_back`. -/
def roll_back (db : AnalysisDatabase) : AnalysisDatabase :=
  ⟨db.store.rollback⟩

/-- `AnalysisDatabase::execute`: begin; run `f`; on error roll back and
propagate the error; on success commit and return the result. -/
def execute (f : AnalysisDatabase → Except ε τ × AnalysisDatabase)
    (db : AnalysisDatabase) : Except ε τ × AnalysisDatabase :=
  match f db.begin with
  | (Except.error e, db2) => (Except.error e, db2.roll_back)
  | (Except.ok t, db2) => (Except.ok t, db2.commit)

/-- `AnalysisDatabase::has_contract`. -/
def has_contract (db : AnalysisDatabase) (id : QualifiedContractIdentifier) : Bool :=
  db.store.has_metadata_entry id storage_key

/-- `AnalysisDatabase::load_contract`: `get_metadata(...).ok()?` masks the
store's "not found" error as `None`; a present entry is deserialized (a panic
on undecodable data is the outer `none`). -/
def load_contract (db : AnalysisDatabase) (id : QualifiedContractIdentifier) :
    Option (Option ContractAnalysis) :=
  match db.store.get_metadata id storage_key with
  | Except.error _ => some none
  | Except.ok none => some none
  | Except.ok (some bytes) =>
    match ContractAnalysis.deserialize bytes with
    | none => none
    | some c => some (some c)

/-- `AnalysisDatabase::insert_contract`: refuse with `ContractAlreadyExists`
when an entry is already present; otherwise store the serialized analysis
under the fixed storage key. -/
def insert_contract (db : AnalysisDatabase) (id : QualifiedContractIdentifier)
    (contract : ContractAnalysis) : Except CheckErrors Unit × AnalysisDatabase :=
  if db.store.has_metadata_entry id storage_key then
    (Except.error (CheckErrors.ContractAlreadyExists id.toStr), db)
  else
    (Except.ok (), ⟨db.store.insert_metadata id storage_key contract.serialize⟩)

/-- `AnalysisDatabase::get_public_function_type`. -/
def get_public_function_type (db : AnalysisDatabase) (id : QualifiedContractIdentifier)
    (function_name : String) : Option (Except CheckErrors (Option FunctionType)) :=
  match db.load_contract id with
  | none => none
  | some none => some (Except.error (CheckErrors.NoSuchContract id.toStr))
  | some (some contract) => some (Except.ok (contract.get_public_function_type function_name))

/-- `AnalysisDatabase::get_read_only_function_type`. -/
def get_read_only_function_type (db : AnalysisDatabase) (id : QualifiedContractIdentifier)
    (function_name : String) : Option (Except CheckErrors (Option FunctionType)) :=
  match db.load_contract id with
  | none => none
  | some none => some (Except.error (CheckErrors.NoSuchContract id.toStr))
  | some (some contract) =>
    some (Except.ok (contract.get_read_only_function_type function_name))

/-- `AnalysisDatabase::get_defined_trait`. -/
def get_defined_trait (db : AnalysisDatabase) (id : QualifiedContractIdentifier)
    (trait_name : String) :
    Option (Except CheckErrors (Option (List (String × FunctionSignature)))) :=
  match db.load_contract id with
  | none => none
  | some none => some (Except.error (CheckErrors.NoSuchContract id.toStr))
  | some (some contract) => some (Except.ok (contract.get_defined_trait trait_name))

/-- `AnalysisDatabase::get_implemented_traits`. -/
def get_implemented_traits (db : AnalysisDatabase) (id : QualifiedContractIdentifier) :
    Option (Except CheckErrors (List TraitIdentifier)) :=
  match db.load_contract id with
  | none => none
  | some none => some (Except.error (CheckErrors.NoSuchContract id.toStr))
  | some (some contract) => some (Except.ok contract.implemented_traits)

/-- `AnalysisDatabase::get_map_type`. -/
def get_map_type (db : AnalysisDatabase) (id : QualifiedContractIdentifier)
    (map_name : String) :
    Option (Except CheckErrors (TypeSignature × TypeSignature)) :=
  match db.load_contract id with
  | none => none
  | some none => some (Except.error (CheckErrors.NoSuchContract id.toStr))
  | some (some contract) =>
    match contract.get_map_type map_name with
    | none => some (Except.error (CheckErrors.NoSuchMap map_name))
    | some map_type => some (Except.ok map_type)

end AnalysisDatabase

/-! ## Claim theorems -/

/-- C2: For an epoch table with the three intervals `[0,8)`, `[8,12)`,
`[12, STACKS_EPOCH_MAX)`, `get_stacks_epoch h` resolves every height `h` in
`0..=7` to the first epoch (Epoch10), every `h` in `8..=11` to the second
(Epoch20), and every `h ≥ 12` (over the `u32` height range) to the third
(Epoch2_05); and every height is covered by exactly one record of the table
(never zero, never more than one). -/
theorem claim_c2_epoch_boundary_exactness (h : Nat) (hu : h < 2 ^ 32) :
    (h < 8 → get_stacks_epoch test_epoch_table h = some epoch10_entry) ∧
    (8 ≤ h → h < 12 → get_stacks_epoch test_epoch_table h = some epoch20_entry) ∧
    (12 ≤ h → get_stacks_epoch test_epoch_table h = some epoch2_05_entry) ∧
    test_epoch_table.countP (fun e => e.covers h) = 1 := by
  have hmax : h < STACKS_EPOCH_MAX := lt_of_lt_of_le hu (by norm_num [STACKS_EPOCH_MAX])
  by_cases hc8 : h < 8
  · have hn1 : ¬ 8 ≤ h := by omega
    have hn2 : ¬ 12 ≤ h := by omega
    refine ⟨fun _ => ?_, fun hge _ => absurd hc8 (by omega), fun hge => absurd hc8 (by omega), ?_⟩
    · simp [get_stacks_epoch, test_epoch_table, List.find?_cons, StacksEpoch.covers,
        epoch10_entry, hc8]
    · simp [test_epoch_table, List.countP_cons, StacksEpoch.covers,
        epoch10_entry, epoch20_entry, epoch2_05_entry, hc8, hn1, hn2]
  · by_cases hc12 : h < 12
    · have hge8 : 8 ≤ h := by omega
      refine ⟨fun hlt => absurd hlt hc8, fun _ _ => ?_, fun hge => absurd hc12 (by omega), ?_⟩
      · simp [get_stacks_epoch, test_epoch_table, List.find?_cons, StacksEpoch.covers,
          epoch10_entry, epoch20_entry, hc8, hge8, hc12]
      · simp [test_epoch_table, List.countP_cons, StacksEpoch.covers,
          epoch10_entry, epoch20_entry, epoch2_05_entry, hc8, hge8, hc12]
    · have hge12 : 12 ≤ h := by omega
      refine ⟨fun hlt => absurd hlt hc8, fun _ hlt => absurd hlt hc12, fun _ => ?_, ?_⟩
      · simp [get_stacks_epoch, test_epoch_table, List.find?_cons, StacksEpoch.covers,
          epoch10_entry, epoch20_entry, epoch2_05_entry, hc8, hc12, hge12, hmax]
      · simp [test_epoch_table, List.countP_cons, StacksEpoch.covers,
          epoch10_entry, epoch20_entry, epoch2_05_entry, hc8, hc12, hge12, hmax]

/-- Witness for C2 at concrete heights: 7 resolves to the first epoch, 8 and
11 to the second, 12 to the third, and height 12 is covered by exactly one
record. -/
theorem claim_c2_epoch_boundary_exactness_witness :
    get_stacks_epoch test_epoch_table 7 = some epoch10_entry ∧
    get_stacks_epoch test_epoch_table 8 = some epoch20_entry ∧
    get_stacks_epoch test_epoch_table 11 = some epoch20_entry ∧
    get_stacks_epoch test_epoch_table 12 = some epoch2_05_entry ∧
    test_epoch_table.countP (fun e => e.covers 12) = 1 := by
  refine ⟨(claim_c2_epoch_boundary_exactness 7 (by norm_num)).1 (by norm_num),
    (claim_c2_epoch_boundary_exactness 8 (by norm_num)).2.1 (by norm_num) (by norm_num),
    (claim_c2_epoch_boundary_exactness 11 (by norm_num)).2.1 (by norm_num) (by norm_num),
    (claim_c2_epoch_boundary_exactness 12 (by norm_num)).2.2.1 (by norm_num),
    (claim_c2_epoch_boundary_exactness 12 (by norm_num)).2.2.2⟩

/-- C3: resolving any height through a read-only snapshot handle and through
an in-flight write-transaction handle over the same underlying chain history
yields identical `StacksEpoch` values — the two implementations of the Epoch
Resolution Capability are observationally equal, with no skew from the
transaction's private pending writes. -/
theorem claim_c3_cross_handle_consistency (conn : SortitionHandleConn)
    (tx : SortitionHandleTx) (hsame : conn.context = tx.context) (h : Nat) :
    conn.get_stacks_epoch h = tx.get_stacks_epoch h := by
  simp [SortitionHandleConn.get_stacks_epoch, SortitionHandleTx.get_stacks_epoch, hsame]

/-- Witness for C3: a snapshot handle and a transaction handle (the latter
with nonempty pending writes) over the test epoch table agree at height 9. -/
theorem claim_c3_cross_handle_consistency_witness :
    SortitionHandleConn.get_stacks_epoch ⟨⟨test_epoch_table⟩⟩ 9 =
      SortitionHandleTx.get_stacks_epoch ⟨⟨test_epoch_table⟩, [(1, 2)]⟩ 9 :=
  claim_c3_cross_handle_consistency ⟨⟨test_epoch_table⟩⟩ ⟨⟨test_epoch_table⟩, [(1, 2)]⟩ rfl 9

/-! ### Helper lemmas about the store -/

/-- A metadata read straight after the corresponding insert finds the written
value (through the pending-writes path) whenever a frame is open. -/
theorem get_metadata_insert_frame (s : RollbackWrapper) (hf : s.frames ≠ [])
    (id : QualifiedContractIdentifier) (key : String) (value : Bytes) :
    (s.insert_metadata id key value).get_metadata id key = Except.ok (some value) := by
  cases hsf : s.frames with
  | nil => exact absurd hsf hf
  | cons top rest =>
    simp [RollbackWrapper.insert_metadata, RollbackWrapper.get_metadata, hsf,
      flattenFrames, alookup]

/-- `insert_metadata` with an open frame touches only the top frame: the known
set, the durable base and the lower frames are all preserved. -/
theorem insert_metadata_preserves (s : RollbackWrapper) (hf : s.frames ≠ [])
    (id : QualifiedContractIdentifier) (key : String) (value : Bytes) :
    (s.insert_metadata id key value).known_contracts = s.known_contracts ∧
    (s.insert_metadata id key value).base = s.base ∧
    (s.insert_metadata id key value).frames ≠ [] ∧
    (s.insert_metadata id key value).frames.tail = s.frames.tail := by
  cases hsf : s.frames with
  | nil => exact absurd hsf hf
  | cons top rest => simp [RollbackWrapper.insert_metadata, hsf]

/-- `load_contract` straight after a successful `insert_contract` of `A`
returns `A` (serialization round-trips), whenever a frame is open. -/
theorem load_contract_insert (db : AnalysisDatabase) (hf : db.store.frames ≠ [])
    (id : QualifiedContractIdentifier) (A : ContractAnalysis)
    (hfresh : db.store.has_metadata_entry id AnalysisDatabase.storage_key = false) :
    ((db.insert_contract id A).2).load_contract id = some (some A) := by
  simp only [AnalysisDatabase.insert_contract, hfresh, Bool.false_eq_true, if_false,
    AnalysisDatabase.load_contract]
  rw [get_metadata_insert_frame db.store hf id AnalysisDatabase.storage_key A.serialize]
  simp [deserialize_serialize]

/-- C4: write-once invariant.  From a state with an open frame and no entry
yet for `id`, `insert_contract id A` succeeds; a second
`insert_contract id B` on the resulting state fails with
`ContractAlreadyExists` (and leaves the state untouched), and `load_contract`
after both calls still returns `A`. -/
theorem claim_c4_write_once (db : AnalysisDatabase) (id : QualifiedContractIdentifier)
    (A B : ContractAnalysis) (hf : db.store.frames ≠ [])
    (hfresh : db.store.has_metadata_entry id AnalysisDatabase.storage_key = false) :
    (db.insert_contract id A).1 = Except.ok () ∧
    ((db.insert_contract id A).2.insert_contract id B).1 =
      Except.error (CheckErrors.ContractAlreadyExists id.toStr) ∧
    ((db.insert_contract id A).2.insert_contract id B).2.load_contract id =
      some (some A) := by
  have hok : db.insert_contract id A =
      (Except.ok (),
        ⟨db.store.insert_metadata id AnalysisDatabase.storage_key A.serialize⟩) := by
    simp [AnalysisDatabase.insert_contract, hfresh]
  have hdup : (⟨db.store.insert_metadata id AnalysisDatabase.storage_key A.serialize⟩ :
      AnalysisDatabase).store.has_metadata_entry id AnalysisDatabase.storage_key = true := by
    simp [RollbackWrapper.has_metadata_entry,
      get_metadata_insert_frame db.store hf id AnalysisDatabase.storage_key A.serialize]
  have hfail : (⟨db.store.insert_metadata id AnalysisDatabase.storage_key A.serialize⟩ :
      AnalysisDatabase).insert_contract id B =
      (Except.error (CheckErrors.ContractAlreadyExists id.toStr),
        ⟨db.store.insert_metadata id AnalysisDatabase.storage_key A.serialize⟩) := by
    simp [AnalysisDatabase.insert_contract, hdup]
  have hload := load_contract_insert db hf id A hfresh
  exact ⟨by simp [hok], by simp [hok, hfail], by simpa [hok, hfail] using hload⟩

/-- Witness for C4 at a concrete store (one open frame, `id` known, no prior
entry) and two concrete distinct analyses. -/
theorem claim_c4_write_once_witness :
    (AnalysisDatabase.insert_contract ⟨⟨[⟨"S", "c"⟩], [], [[]]⟩⟩ ⟨"S", "c"⟩
        ⟨[], [], [], [], []⟩).1 = Except.ok () ∧
    ((AnalysisDatabase.insert_contract ⟨⟨[⟨"S", "c"⟩], [], [[]]⟩⟩ ⟨"S", "c"⟩
        ⟨[], [], [], [], []⟩).2.insert_contract ⟨"S", "c"⟩
        ⟨[], [], [], [], [("m", (TypeSignature.IntType, TypeSignature.BoolType))]⟩).1 =
      Except.error (CheckErrors.ContractAlreadyExists
        (QualifiedContractIdentifier.toStr ⟨"S", "c"⟩)) ∧
    ((AnalysisDatabase.insert_contract ⟨⟨[⟨"S", "c"⟩], [], [[]]⟩⟩ ⟨"S", "c"⟩
        ⟨[], [], [], [], []⟩).2.insert_contract ⟨"S", "c"⟩
        ⟨[], [], [], [], [("m", (TypeSignature.IntType, TypeSignature.BoolType))]⟩).2.load_contract
        ⟨"S", "c"⟩ = some (some ⟨[], [], [], [], []⟩) :=
  claim_c4_write_once ⟨⟨[⟨"S", "c"⟩], [], [[]]⟩⟩ ⟨"S", "c"⟩ ⟨[], [], [], [], []⟩
    ⟨[], [], [], [], [("m", (TypeSignature.IntType, TypeSignature.BoolType))]⟩
    (by simp) (by decide)

/-- C8: a failed `insert_contract` (entry already present) performs no write
at all — it returns the state unchanged, so every subsequent `has_contract`
and `load_contract`, for every identifier, is as before the failed call. -/
theorem claim_c8_failed_insert_no_write (db : AnalysisDatabase)
    (id : QualifiedContractIdentifier) (B : ContractAnalysis)
    (hdup : db.store.has_metadata_entry id AnalysisDatabase.storage_key = true) :
    (db.insert_contract id B).2 = db ∧
    (db.insert_contract id B).1 =
      Except.error (CheckErrors.ContractAlreadyExists id.toStr) ∧
    (∀ id', (db.insert_contract id B).2.has_contract id' = db.has_contract id') ∧
    (∀ id', (db.insert_contract id B).2.load_contract id' = db.load_contract id') := by
  have hst : db.insert_contract id B =
      (Except.error (CheckErrors.ContractAlreadyExists id.toStr), db) := by
    simp [AnalysisDatabase.insert_contract, hdup]
  exact ⟨by rw [hst], by rw [hst], fun id' => by rw [hst], fun id' => by rw [hst]⟩

/-- Witness for C8: the duplicate insert on a concrete one-entry store leaves
the state identical. -/
theorem claim_c8_failed_insert_no_write_witness :
    (AnalysisDatabase.insert_contract
        ⟨⟨[⟨"S", "c"⟩], [((⟨"S", "c"⟩, "analysis"), [0, 0, 0, 0, 0])], []⟩⟩ ⟨"S", "c"⟩
        ⟨[], [], [], [], []⟩).2 =
      ⟨⟨[⟨"S", "c"⟩], [((⟨"S", "c"⟩, "analysis"), [0, 0, 0, 0, 0])], []⟩⟩ ∧
    (AnalysisDatabase.insert_contract
        ⟨⟨[⟨"S", "c"⟩], [((⟨"S", "c"⟩, "analysis"), [0, 0, 0, 0, 0])], []⟩⟩ ⟨"S", "c"⟩
        ⟨[], [], [], [], []⟩).1 =
      Except.error (CheckErrors.ContractAlreadyExists
        (QualifiedContractIdentifier.toStr ⟨"S", "c"⟩)) := by
  have h := claim_c8_failed_insert_no_write
    ⟨⟨[⟨"S", "c"⟩], [((⟨"S", "c"⟩, "analysis"), [0, 0, 0, 0, 0])], []⟩⟩ ⟨"S", "c"⟩
    ⟨[], [], [], [], []⟩ (by decide)
  exact ⟨h.1, h.2.1⟩

/-- C5: `load_contract` returns `None` exactly when the entry is absent or the
backing store reports the "not found" condition; a present but undecodable
entry is not masked as `None` — it escapes through the deserializer's panic
channel (the outer `none`) instead of producing the `None` value
(`some none`). -/
theorem claim_c5_load_none_exactly_not_found (db : AnalysisDatabase)
    (id : QualifiedContractIdentifier) :
    (db.load_contract id = some none ↔
      db.store.get_metadata id AnalysisDatabase.storage_key =
        Except.error MetadataError.NotFound ∨
      db.store.get_metadata id AnalysisDatabase.storage_key = Except.ok none) ∧
    (∀ bytes, db.store.get_metadata id AnalysisDatabase.storage_key =
        Except.ok (some bytes) →
      ContractAnalysis.deserialize bytes = none →
      db.load_contract id = none) := by
  constructor
  · cases hg : db.store.get_metadata id AnalysisDatabase.storage_key with
    | error e =>
      cases e
      simp [AnalysisDatabase.load_contract, hg]
    | ok o =>
      cases o with
      | none => simp [AnalysisDatabase.load_contract, hg]
      | some bytes =>
        cases hd : ContractAnalysis.deserialize bytes with
        | none => simp [AnalysisDatabase.load_contract, hg, hd]
        | some c => simp [AnalysisDatabase.load_contract, hg, hd]
  · intro bytes hg hd
    simp [AnalysisDatabase.load_contract, hg, hd]

/-- Witness for C5: on an empty store an unknown contract loads as `None`
(`some none`), while a known contract whose stored entry `[99]` is undecodable
makes `load_contract` escape through the panic channel (`none`), not `None`. -/
theorem claim_c5_load_none_exactly_not_found_witness :
    AnalysisDatabase.load_contract ⟨⟨[], [], []⟩⟩ ⟨"S", "c"⟩ = some none ∧
    AnalysisDatabase.load_contract
      ⟨⟨[⟨"S", "c"⟩], [((⟨"S", "c"⟩, "analysis"), [99])], []⟩⟩ ⟨"S", "c"⟩ = none := by
  constructor
  · exact (claim_c5_load_none_exactly_not_found ⟨⟨[], [], []⟩⟩ ⟨"S", "c"⟩).1.mpr
      (Or.inl rfl)
  · exact (claim_c5_load_none_exactly_not_found
      ⟨⟨[⟨"S", "c"⟩], [((⟨"S", "c"⟩, "analysis"), [99])], []⟩⟩ ⟨"S", "c"⟩).2
      [99] rfl (by decide)

/-- C6: projection consistency.  After a successful `insert_contract id A`:
a map `m` declared by `A` with key/value types `(K, V)` is reported by
`get_map_type` as `Ok (K, V)`; an undeclared map name fails with `NoSuchMap`;
and on any state, every facet getter applied to an identifier whose
`load_contract` is `None` fails with `NoSuchContract`. -/
theorem claim_c6_projection_consistency (db : AnalysisDatabase)
    (id : QualifiedContractIdentifier) (A : ContractAnalysis)
    (hf : db.store.frames ≠ [])
    (hfresh : db.store.has_metadata_entry id AnalysisDatabase.storage_key = false) :
    (∀ m K V, A.get_map_type m = some (K, V) →
      ((db.insert_contract id A).2).get_map_type id m = some (Except.ok (K, V))) ∧
    (∀ n, A.get_map_type n = none →
      ((db.insert_contract id A).2).get_map_type id n =
        some (Except.error (CheckErrors.NoSuchMap n))) ∧
    (∀ (db' : AnalysisDatabase) (id' : QualifiedContractIdentifier) (n : String),
      db'.load_contract id' = some none →
      db'.get_public_function_type id' n =
        some (Except.error (CheckErrors.NoSuchContract id'.toStr)) ∧
      db'.get_read_only_function_type id' n =
        some (Except.error (CheckErrors.NoSuchContract id'.toStr)) ∧
      db'.get_defined_trait id' n =
        some (Except.error (CheckErrors.NoSuchContract id'.toStr)) ∧
      db'.get_implemented_traits id' =
        some (Except.error (CheckErrors.NoSuchContract id'.toStr)) ∧
      db'.get_map_type id' n =
        some (Except.error (CheckErrors.NoSuchContract id'.toStr))) := by
  have hload := load_contract_insert db hf id A hfresh
  refine ⟨?_, ?_, ?_⟩
  · intro m K V hm
    simp [AnalysisDatabase.get_map_type, hload, hm]
  · intro n hn
    simp [AnalysisDatabase.get_map_type, hload, hn]
  · intro db' id' n habsent
    simp [AnalysisDatabase.get_public_function_type, AnalysisDatabase.get_read_only_function_type,
      AnalysisDatabase.get_defined_trait, AnalysisDatabase.get_implemented_traits,
      AnalysisDatabase.get_map_type, habsent]

/-- Witness for C6: a concrete insert of an analysis declaring map `"m"` of
type `(int, bool)`; `get_map_type` projects it back, an undeclared name fails
with `NoSuchMap`, and an unregistered identifier fails with
`NoSuchContract`. -/
theorem claim_c6_projection_consistency_witness :
    ((AnalysisDatabase.insert_contract ⟨⟨[⟨"S", "c"⟩], [], [[]]⟩⟩ ⟨"S", "c"⟩
        ⟨[], [], [], [], [("m", (TypeSignature.IntType, TypeSignature.BoolType))]⟩).2).get_map_type
      ⟨"S", "c"⟩ "m" =
      some (Except.ok (TypeSignature.IntType, TypeSignature.BoolType)) ∧
    ((AnalysisDatabase.insert_contract ⟨⟨[⟨"S", "c"⟩], [], [[]]⟩⟩ ⟨"S", "c"⟩
        ⟨[], [], [], [], [("m", (TypeSignature.IntType, TypeSignature.BoolType))]⟩).2).get_map_type
      ⟨"S", "c"⟩ "zzz" = some (Except.error (CheckErrors.NoSuchMap "zzz")) ∧
    AnalysisDatabase.get_map_type ⟨⟨[], [], []⟩⟩ ⟨"S", "c"⟩ "m" =
      some (Except.error (CheckErrors.NoSuchContract
        (QualifiedContractIdentifier.toStr ⟨"S", "c"⟩))) := by
  have h := claim_c6_projection_consistency ⟨⟨[⟨"S", "c"⟩], [], [[]]⟩⟩ ⟨"S", "c"⟩
    ⟨[], [], [], [], [("m", (TypeSignature.IntType, TypeSignature.BoolType))]⟩
    (by simp) (by decide)
  exact ⟨h.1 "m" TypeSignature.IntType TypeSignature.BoolType (by decide),
    h.2.1 "zzz" (by decide),
    (h.2.2 ⟨⟨[], [], []⟩⟩ ⟨"S", "c"⟩ "m" (by decide)).2.2.2.2⟩

/-- C9: for a registered contract, the function-type and trait getters applied
to a name the contract does not declare return `Ok(None)` rather than an
error. -/
theorem claim_c9_missing_name_yields_ok_none (db : AnalysisDatabase)
    (id : QualifiedContractIdentifier) (c : ContractAnalysis) (n : String)
    (hreg : db.load_contract id = some (some c)) :
    (c.get_public_function_type n = none →
      db.get_public_function_type id n = some (Except.ok none)) ∧
    (c.get_read_only_function_type n = none →
      db.get_read_only_function_type id n = some (Except.ok none)) ∧
    (c.get_defined_trait n = none →
      db.get_defined_trait id n = some (Except.ok none)) := by
  refine ⟨fun h => ?_, fun h => ?_, fun h => ?_⟩
  · simp [AnalysisDatabase.get_public_function_type, hreg, h]
  · simp [AnalysisDatabase.get_read_only_function_type, hreg, h]
  · simp [AnalysisDatabase.get_defined_trait, hreg, h]

/-- Witness for C9: a store holding the empty analysis (serialized as
`[0,0,0,0,0]`) under `"analysis"`; every getter at the undeclared name `"f"`
answers `Ok(None)`. -/
theorem claim_c9_missing_name_yields_ok_none_witness :
    AnalysisDatabase.get_public_function_type
      ⟨⟨[], [], [[((⟨"S", "c"⟩, "analysis"), [0, 0, 0, 0, 0])]]⟩⟩ ⟨"S", "c"⟩ "f" =
      some (Except.ok none) ∧
    AnalysisDatabase.get_read_only_function_type
      ⟨⟨[], [], [[((⟨"S", "c"⟩, "analysis"), [0, 0, 0, 0, 0])]]⟩⟩ ⟨"S", "c"⟩ "f" =
      some (Except.ok none) ∧
    AnalysisDatabase.get_defined_trait
      ⟨⟨[], [], [[((⟨"S", "c"⟩, "analysis"), [0, 0, 0, 0, 0])]]⟩⟩ ⟨"S", "c"⟩ "f" =
      some (Except.ok none) := by
  have h := claim_c9_missing_name_yields_ok_none
    ⟨⟨[], [], [[((⟨"S", "c"⟩, "analysis"), [0, 0, 0, 0, 0])]]⟩⟩ ⟨"S", "c"⟩
    ⟨[], [], [], [], []⟩ "f" (by decide)
  exact ⟨h.1 (by decide), h.2.1 (by decide), h.2.2 (by decide)⟩

/-- Discarding the top frame of a state that differs from `s0` only in having
one extra frame on top restores `s0` exactly. -/
theorem rollback_restores (s0 s' : RollbackWrapper)
    (hk : s'.known_contracts = s0.known_contracts) (hb : s'.base = s0.base)
    (hne : s'.frames ≠ []) (ht : s'.frames.tail = s0.frames) :
    s'.rollback = s0 := by
  cases hsf : s'.frames with
  | nil => exact absurd hsf hne
  | cons x xs =>
    rw [hsf] at ht
    simp only [List.tail_cons] at ht
    simp only [RollbackWrapper.rollback, hsf]
    apply RollbackWrapper.ext <;> simp [hk, hb, ht]

/-- C1: scoped-execute atomicity.  For any unit of work `f` that only ever
touches the innermost frame (its nested begins/commits balanced, the durable
base and lower frames untouched): if `f` returns an error, `execute` discards
the frame it opened, so the final state is exactly the initial one — no write
made inside `f` is observable by any subsequent read — and the error value is
returned unchanged; if `f` succeeds, `execute` commits the frame and returns
`f`'s result unchanged. -/
theorem claim_c1_execute_atomicity {ε τ : Type}
    (f : AnalysisDatabase → Except ε τ × AnalysisDatabase) (db : AnalysisDatabase)
    (Hf : ∀ s : AnalysisDatabase, s.store.frames ≠ [] →
      (f s).2.store.known_contracts = s.store.known_contracts ∧
      (f s).2.store.base = s.store.base ∧
      (f s).2.store.frames ≠ [] ∧
      (f s).2.store.frames.tail = s.store.frames.tail) :
    (∀ e s', f db.begin = (Except.error e, s') →
      AnalysisDatabase.execute f db = (Except.error e, db) ∧
      (∀ id, (AnalysisDatabase.execute f db).2.load_contract id = db.load_contract id) ∧
      (∀ id, (AnalysisDatabase.execute f db).2.has_contract id = db.has_contract id)) ∧
    (∀ t s', f db.begin = (Except.ok t, s') →
      AnalysisDatabase.execute f db = (Except.ok t, s'.commit)) := by
  constructor
  · intro e s' hfe
    have h2 := Hf db.begin (by simp [AnalysisDatabase.begin, RollbackWrapper.nest])
    simp only [hfe] at h2
    simp only [AnalysisDatabase.begin, RollbackWrapper.nest, List.tail_cons] at h2
    obtain ⟨hk, hb, hne, ht⟩ := h2
    have hstate : AnalysisDatabase.execute f db = (Except.error e, s'.roll_back) := by
      simp [AnalysisDatabase.execute, hfe]
    have hrb : s'.roll_back = db := by
      apply AnalysisDatabase.ext
      simp only [AnalysisDatabase.roll_back]
      exact rollback_restores db.store s'.store hk hb hne ht
    rw [hrb] at hstate
    exact ⟨hstate, fun id => by rw [hstate], fun id => by rw [hstate]⟩
  · intro t s' hfok
    simp [AnalysisDatabase.execute, hfok]

/-- Witness for C1: a unit of work that inserts a metadata entry and then
fails leaves a concrete database exactly unchanged; a succeeding unit of work
commits and returns its value unchanged. -/
theorem claim_c1_execute_atomicity_witness :
    AnalysisDatabase.execute
        (fun s => ((Except.error 7 : Except Nat Nat),
          ⟨s.store.insert_metadata ⟨"S", "c"⟩ "analysis" [1]⟩))
        ⟨⟨[⟨"S", "c"⟩], [], []⟩⟩ =
      (Except.error 7, (⟨⟨[⟨"S", "c"⟩], [], []⟩⟩ : AnalysisDatabase)) ∧
    AnalysisDatabase.execute (fun s => ((Except.ok 5 : Except Nat Nat), s))
        ⟨⟨[⟨"S", "c"⟩], [], []⟩⟩ =
      (Except.ok 5,
        AnalysisDatabase.commit (AnalysisDatabase.begin ⟨⟨[⟨"S", "c"⟩], [], []⟩⟩)) := by
  constructor
  · exact ((claim_c1_execute_atomicity
      (fun s => ((Except.error 7 : Except Nat Nat),
        ⟨s.store.insert_metadata ⟨"S", "c"⟩ "analysis" [1]⟩))
      ⟨⟨[⟨"S", "c"⟩], [], []⟩⟩
      (fun s hs => by
        simpa using insert_metadata_preserves s.store hs ⟨"S", "c"⟩ "analysis" [1])).1
      7 _ rfl).1
  · exact (claim_c1_execute_atomicity _ ⟨⟨[⟨"S", "c"⟩], [], []⟩⟩
      (fun s hs => ⟨rfl, rfl, hs, rfl⟩)).2 5 _ rfl

/-- C10: `execute` performs exactly one `begin` matched by exactly one
`commit` (success) or `roll_back` (failure): for any unit of work that
preserves the frame depth, the nesting depth after `execute` returns equals
the depth before it was called, on both control paths. -/
theorem claim_c10_execute_preserves_depth {ε τ : Type}
    (f : AnalysisDatabase → Except ε τ × AnalysisDatabase) (db : AnalysisDatabase)
    (Hf : ∀ s : AnalysisDatabase, (f s).2.store.frames.length = s.store.frames.length) :
    (AnalysisDatabase.execute f db).2.store.frames.length = db.store.frames.length := by
  cases hfe : f db.begin with
  | mk res s' =>
    have hlen := Hf db.begin
    rw [hfe] at hlen
    simp only [AnalysisDatabase.begin, RollbackWrapper.nest, List.length_cons] at hlen
    cases res with
    | error e =>
      simp only [AnalysisDatabase.execute, hfe]
      cases hsf : s'.store.frames with
      | nil => rw [hsf] at hlen; simp at hlen
      | cons x xs =>
        rw [hsf] at hlen
        simp only [List.length_cons, Nat.add_right_cancel_iff] at hlen
        simp [AnalysisDatabase.roll_back, RollbackWrapper.rollback, hsf, hlen]
    | ok t =>
      simp only [AnalysisDatabase.execute, hfe]
      cases hsf : s'.store.frames with
      | nil => rw [hsf] at hlen; simp at hlen
      | cons x xs =>
        rw [hsf] at hlen
        cases xs with
        | nil =>
          simp at hlen
          simp [AnalysisDatabase.commit, RollbackWrapper.commit, hsf, hlen]
        | cons y ys =>
          simp at hlen
          simp [AnalysisDatabase.commit, RollbackWrapper.commit, hsf]
          omega

/-- Witness for C10 on both control paths at a concrete database with one
already-open frame. -/
theorem claim_c10_execute_preserves_depth_witness :
    (AnalysisDatabase.execute (fun s => ((Except.ok 5 : Except Nat Nat), s))
      ⟨⟨[], [], [[]]⟩⟩).2.store.frames.length = 1 ∧
    (AnalysisDatabase.execute (fun s => ((Except.error 7 : Except Nat Nat), s))
      ⟨⟨[], [], [[]]⟩⟩).2.store.frames.length = 1 := by
  constructor
  · exact claim_c10_execute_preserves_depth _ ⟨⟨[], [], [[]]⟩⟩ (fun s => rfl)
  · exact claim_c10_execute_preserves_depth _ ⟨⟨[], [], [[]]⟩⟩ (fun s => rfl)

/-- C7: round-trip.  `deserialize (serialize A) = some A` for every
`ContractAnalysis` value `A`; consequently any value it produces agrees with
`A` on every queried facet (public and read-only function types, defined
traits, implemented-trait set, map types); and `load_contract` straight after
a successful `insert_contract id A` reproduces `A`. -/
theorem claim_c7_serialization_roundtrip (A : ContractAnalysis) :
    ContractAnalysis.deserialize A.serialize = some A ∧
    (∀ B, ContractAnalysis.deserialize A.serialize = some B →
      (∀ n, B.get_public_function_type n = A.get_public_function_type n) ∧
      (∀ n, B.get_read_only_function_type n = A.get_read_only_function_type n) ∧
      (∀ n, B.get_defined_trait n = A.get_defined_trait n) ∧
      B.implemented_traits = A.implemented_traits ∧
      (∀ n, B.get_map_type n = A.get_map_type n)) ∧
    (∀ (db : AnalysisDatabase) (id : QualifiedContractIdentifier),
      db.store.frames ≠ [] →
      db.store.has_metadata_entry id AnalysisDatabase.storage_key = false →
      ((db.insert_contract id A).2).load_contract id = some (some A)) := by
  refine ⟨deserialize_serialize A, ?_, ?_⟩
  · intro B hB
    rw [deserialize_serialize A] at hB
    injection hB with h
    subst h
    exact ⟨fun n => rfl, fun n => rfl, fun n => rfl, rfl, fun n => rfl⟩
  · intro db id hf hfresh
    exact load_contract_insert db hf id A hfresh

/-- Witness for C7: a nontrivial concrete analysis (a public function, a
defined trait, an implemented trait, a map) round-trips, and inserting it
then loading it reproduces it. -/
theorem claim_c7_serialization_roundtrip_witness :
    ContractAnalysis.deserialize
        (ContractAnalysis.serialize
          ⟨[("f", ⟨[TypeSignature.IntType], TypeSignature.BoolType⟩)],
           [("r", ⟨[], TypeSignature.UIntType⟩)],
           [("t", [("g", ⟨[], TypeSignature.UIntType⟩)])],
           [⟨⟨"S", "other"⟩, "tr"⟩],
           [("m", (TypeSignature.IntType,
             TypeSignature.OptionalType TypeSignature.BoolType))]⟩) =
      some ⟨[("f", ⟨[TypeSignature.IntType], TypeSignature.BoolType⟩)],
        [("r", ⟨[], TypeSignature.UIntType⟩)],
        [("t", [("g", ⟨[], TypeSignature.UIntType⟩)])],
        [⟨⟨"S", "other"⟩, "tr"⟩],
        [("m", (TypeSignature.IntType,
          TypeSignature.OptionalType TypeSignature.BoolType))]⟩ ∧
    ((AnalysisDatabase.insert_contract ⟨⟨[⟨"S", "c"⟩], [], [[]]⟩⟩ ⟨"S", "c"⟩
        ⟨[("f", ⟨[TypeSignature.IntType], TypeSignature.BoolType⟩)],
         [("r", ⟨[], TypeSignature.UIntType⟩)],
         [("t", [("g", ⟨[], TypeSignature.UIntType⟩)])],
         [⟨⟨"S", "other"⟩, "tr"⟩],
         [("m", (TypeSignature.IntType,
           TypeSignature.OptionalType TypeSignature.BoolType))]⟩).2).load_contract
      ⟨"S", "c"⟩ =
      some (some ⟨[("f", ⟨[TypeSignature.IntType], TypeSignature.BoolType⟩)],
        [("r", ⟨[], TypeSignature.UIntType⟩)],
        [("t", [("g", ⟨[], TypeSignature.UIntType⟩)])],
        [⟨⟨"S", "other"⟩, "tr"⟩],
        [("m", (TypeSignature.IntType,
          TypeSignature.OptionalType TypeSignature.BoolType))]⟩) := by
  refine ⟨(claim_c7_serialization_roundtrip _).1, ?_⟩
  exact (claim_c7_serialization_roundtrip _).2.2 ⟨⟨[⟨"S", "c"⟩], [], [[]]⟩⟩ ⟨"S", "c"⟩
    (by simp) (by decide)

end StacksSpec
